import Mathlib

/-!
Shallow embedding of `src/DOSpacesWrapper.py` (a DigitalOcean Spaces /
S3-compatible storage client) and verification of the specification claims
about it.

Modelling conventions:
* byte strings are `List Nat`;
* the remote S3-compatible service is an oracle `Env` of response
  functions; a call that the source wraps in `try/except ClientError`
  sees either `RemoteResult.ok` or `RemoteResult.err code`;
* methods of the Python class become functions
  `Wrapper → Env → args → result × Wrapper`; the second component is the
  instance state after the call (the source never assigns to `self`
  outside `__init__`, so it is returned unchanged);
* operations whose only remote effect is issuing write requests return
  the requests they issue, so that claims about request shape can be
  stated.
-/

namespace DOSpaces

/-- Outcome of one remote call: success with a value, or a `ClientError`
carrying the error code string from the service response. -/
inductive RemoteResult (α : Type) where
  | ok (val : α)
  | err (code : String)
  deriving DecidableEq

/-- Whether a remote call succeeded (`try` body runs to completion). -/
def RemoteResult.isOk {α : Type} : RemoteResult α → Bool
  | .ok _ => true
  | .err _ => false

/-- One entry of the `CommonPrefixes` list of a delimiter listing response:
in boto3 this is the dict `{'Prefix': ...}`. -/
structure CommonPfxEntry where
  pfxVal : String
  deriving DecidableEq

/-- One page of a `list_objects_v2` paginator. `contents` is `some keys`
when the page has a `Contents` entry (modelled by the objects' `Key`
fields), `commonPfxs` is `some entries` when it has `CommonPrefixes`. -/
structure PageV2 where
  contents : Option (List String)
  commonPfxs : Option (List CommonPfxEntry)
  deriving DecidableEq

/-- Python attribute access `entry.replace` where `entry` is the
`CommonPrefixes` dict `{'Prefix': ...}`: a dict has no `replace`
attribute, so evaluating `entry.replace(entry, '')` raises
`AttributeError` (which is not a `ClientError`). This models line 223 of
the source, where the generator variable shadows the `prefix` parameter
and ranges over the dict entries of `CommonPrefixes`. -/
def CommonPfxEntry.attrReplace (_entry : CommonPfxEntry) : Except String String :=
  .error "AttributeError"

/-- The remote service, as response oracles for each API call the client
makes. Arguments mirror the request parameters the source passes.
The multipart calls used by `uploadFileChunked` (`create_multipart_upload`,
`upload_part`, `complete_multipart_upload`) are modelled as succeeding,
with `partETag` the ETag the service returns for a given part number and
body; on a `ClientError` in that path the source logs and abandons the
session without completing it, producing no object. -/
structure Env where
  headBucket : String → RemoteResult Unit
  headObject : String → String → RemoteResult Unit
  listObjectsPages : String → String → RemoteResult (List (Option (List String)))
  listObjectsV2Pages : String → String → String → RemoteResult (List PageV2)
  getObject : String → String → RemoteResult (List Nat)
  createMultipartUploadId : String → String → RemoteResult String
  createBucketResult : String → RemoteResult Unit
  listBucketNames : RemoteResult (List String)
  partETag : Nat → List Nat → String

/-- The part of the botocore `Config` object the source constructs:
`Config(s3={'addressing_style': 'virtual'})`. No `retries` entry is
passed to it. -/
structure BotoConfig where
  s3AddressingStyle : Option String
  transportRetries : Option (Nat × String)
  deriving DecidableEq

/-- Instance state built by `__init__` (lines 7-35): the boto3 client
configuration plus the plain attributes assigned on `self`. The
environment-sourced strings are parameters. -/
structure Wrapper where
  clientConfig : BotoConfig
  clientRegion : String
  clientEndpointUrl : String
  clientAccessKeyId : String
  clientSecretKey : String
  signature_version : String
  use_ssl : Bool
  file_overwrite : Bool
  aws_media_location : String
  object_parameters : List (String × String)
  default_acl : String
  bucket_name : String
  querystring_expire : Nat
  querystring_auth : Bool
  max_memory_size : Nat
  retries_max_attempts : Nat
  retries_mode : String
  encryption_scheme : List (String × String)
  deriving DecidableEq

/-- Constructor `__init__`: all values as assigned on lines 11-35. -/
def mkWrapper (region keyId secretKey bucketName : String) : Wrapper where
  clientConfig := { s3AddressingStyle := some "virtual", transportRetries := none }
  clientRegion := region
  clientEndpointUrl := "https://nyc3.digitaloceanspaces.com"
  clientAccessKeyId := keyId
  clientSecretKey := secretKey
  signature_version := "s3v4"
  use_ssl := true
  file_overwrite := true
  aws_media_location := "storage"
  object_parameters := [("CacheControl", "max-age=86400")]
  default_acl := "public-read-write"
  bucket_name := bucketName
  querystring_expire := 3600
  querystring_auth := true
  max_memory_size := 0
  retries_max_attempts := 5
  retries_mode := "standard"
  encryption_scheme := [("ServerSideEncryption", "AES256")]

/-- A `put_object` request as the source issues it. The optional header
fields record whether the request carries an ACL, a Cache-Control or a
server-side-encryption setting; the source's `put_object` calls pass only
`Bucket`, `Key` and `Body`. -/
structure PutObjectRequest where
  bucket : String
  key : String
  body : List Nat
  acl : Option String
  cacheControl : Option String
  serverSideEncryption : Option String
  deriving DecidableEq

/-- A `delete_object` request. -/
structure DeleteObjectRequest where
  bucket : String
  key : String
  deriving DecidableEq

/-- Remote requests issued by the chunked-upload path. -/
inductive S3Op where
  | createMultipartUpload (bucket key : String)
  | uploadPart (bucket key : String) (partNumber : Nat) (body : List Nat)
  | completeMultipartUpload (bucket key : String) (parts : List (Nat × String))
  | putObject (req : PutObjectRequest)
  deriving DecidableEq

/-- Payload argument of `uploadFileChunked`: a finite byte buffer, or a
file-like readable source (`hasattr(fileData, 'read')`), modelled by the
byte sequence it yields; `read(c)` returns the next `min c remaining`
bytes and `read 0` returns the empty byte string. -/
inductive FileData where
  | bytes (data : List Nat)
  | readable (data : List Nat)
  deriving DecidableEq

/-- The sequence of chunks a `while True: chunk = src.read(c)` loop reads
from a source holding `d`: successive `take c`/`drop c` until a read
yields nothing (empty source, or `c = 0` since `read 0 = b''`). -/
def chunks (c : Nat) (d : List Nat) : List (List Nat) :=
  if h : c = 0 ∨ d = [] then []
  else d.take c :: chunks c (d.drop c)
termination_by d.length
decreasing_by
  push_neg at h
  have hd : 0 < d.length := List.length_pos.mpr h.2
  simp only [List.length_drop]
  omega

/-- The part-upload loop of `uploadFileChunked` (lines 351-358): read a
chunk; stop if it is empty; otherwise issue `upload_part` with the current
`part_number`, append `{'PartNumber': part_number, 'ETag': part['ETag']}`
to `parts`, increment `part_number`, repeat. Returns the issued
`upload_part` requests and the final `parts` list. -/
def uploadLoop (etag : Nat → List Nat → String) (bucket key : String) (c : Nat)
    (fileData : List Nat) (part_number : Nat) (parts : List (Nat × String)) :
    List S3Op × List (Nat × String) :=
  if h : c = 0 ∨ fileData = [] then ([], parts)
  else
    let chunk := fileData.take c
    let rest := uploadLoop etag bucket key c (fileData.drop c) (part_number + 1)
      (parts ++ [(part_number, etag part_number chunk)])
    (S3Op.uploadPart bucket key part_number chunk :: rest.1, rest.2)
termination_by fileData.length
decreasing_by
  push_neg at h
  have hd : 0 < fileData.length := List.length_pos.mpr h.2
  simp only [List.length_drop]
  omega

/-- Method `uploadFileChunked` (lines 336-366): for a readable source,
create a multipart session, run the part loop starting at part number 1
with an empty `parts` list, and complete with the accumulated part list;
for a byte buffer, issue a single `put_object` of the whole payload.
Returns the issued requests in order. -/
def uploadFileChunked (self : Wrapper) (env : Env) (filePath : String)
    (fileData : FileData) (chunkSize : Nat) : List S3Op × Wrapper :=
  (match fileData with
   | .readable d =>
       let r := uploadLoop env.partETag self.bucket_name filePath chunkSize d 1 []
       S3Op.createMultipartUpload self.bucket_name filePath :: r.1
         ++ [S3Op.completeMultipartUpload self.bucket_name filePath r.2]
   | .bytes b =>
       [S3Op.putObject
         { bucket := self.bucket_name, key := filePath, body := b,
           acl := none, cacheControl := none, serverSideEncryption := none }],
   self)

/-- Method `createFolder` (lines 88-99): `put_object` at key
`folderPath + "/"` with empty body. -/
def createFolder (self : Wrapper) (folderPath : String) : PutObjectRequest × Wrapper :=
  ({ bucket := self.bucket_name, key := folderPath ++ "/", body := [],
     acl := none, cacheControl := none, serverSideEncryption := none },
   self)

/-- Method `folderExists` (lines 101-120): `head_object` at key
`folderPath + "/"`; `True` on success; on a `ClientError`, `False` whether
the code is `'404'` (silent) or anything else (logged). -/
def folderExists (self : Wrapper) (env : Env) (folderPath : String) : Bool × Wrapper :=
  (match env.headObject self.bucket_name (folderPath ++ "/") with
   | .ok _ => true
   | .err code => if code = "404" then false else false,
   self)

/-- Method `fileExists` (lines 122-141): `head_object` at `filePath`;
same return policy as `folderExists`. -/
def fileExists (self : Wrapper) (env : Env) (filePath : String) : Bool × Wrapper :=
  (match env.headObject self.bucket_name filePath with
   | .ok _ => true
   | .err code => if code = "404" then false else false,
   self)

/-- Method `uploadFile` (lines 143-155): one `put_object` with only
`Bucket`, `Key` and `Body`. -/
def uploadFile (self : Wrapper) (filePath : String) (fileData : List Nat) :
    PutObjectRequest × Wrapper :=
  ({ bucket := self.bucket_name, key := filePath, body := fileData,
     acl := none, cacheControl := none, serverSideEncryption := none },
   self)

/-- Method `updateFile` (lines 157-169): identical body to `uploadFile`. -/
def updateFile (self : Wrapper) (filePath : String) (fileData : List Nat) :
    PutObjectRequest × Wrapper :=
  ({ bucket := self.bucket_name, key := filePath, body := fileData,
     acl := none, cacheControl := none, serverSideEncryption := none },
   self)

/-- Method `deleteFile` (lines 171-182): one `delete_object`. -/
def deleteFile (self : Wrapper) (filePath : String) : DeleteObjectRequest × Wrapper :=
  ({ bucket := self.bucket_name, key := filePath }, self)

/-- Method `deleteFolder` (lines 184-203): paginate `list_objects` with
`Prefix = folderPath` (no slash appended), and for every page that has a
`Contents` entry issue one `delete_objects` batch with that page's keys.
Returns the issued delete batches; on a `ClientError` from the listing the
source logs and returns nothing. -/
def deleteFolder (self : Wrapper) (env : Env) (folderPath : String) :
    List (List String) × Wrapper :=
  (match env.listObjectsPages self.bucket_name folderPath with
   | .ok pages => pages.filterMap id
   | .err _ => [],
   self)

/-- The body of the `for page in page_iterator` loop of `listFolders`
(lines 221-223): for each page with a `CommonPrefixes` entry, extend the
accumulator with `entry.replace(entry, '')` for each entry — an attribute
access on the dict entry, which raises `AttributeError`
(`CommonPfxEntry.attrReplace`); the exception propagates out of `extend`
and, not being a `ClientError`, out of the method. -/
def listFoldersCollect (pages : List PageV2) : Except String (List String) :=
  pages.foldlM
    (fun acc page =>
      match page.commonPfxs with
      | none => Except.ok acc
      | some entries => do
          let extendVals ← entries.mapM CommonPfxEntry.attrReplace
          Except.ok (acc ++ extendVals))
    []

/-- Method `listFolders` (lines 205-228): paginate `list_objects_v2` with
the given prefix and delimiter `'/'`; on a `ClientError` log and return
`[]`; otherwise run the collection loop, whose `AttributeError` (if any
page has common prefixes) propagates to the caller as `Except.error`. -/
def listFolders (self : Wrapper) (env : Env) (pfx : String) :
    Except String (List String) × Wrapper :=
  (match env.listObjectsV2Pages self.bucket_name pfx "/" with
   | .err _ => Except.ok []
   | .ok pages => listFoldersCollect pages,
   self)

/-- The body of the page loop of `listFolderContents` (lines 252-265):
append the keys of the page's `Contents` other than the folder marker
itself, then the `Prefix` fields of its `CommonPrefixes` other than the
marker. -/
def listFolderContentsCollect (marker : String) (pages : List PageV2) : List String :=
  pages.foldl
    (fun acc page =>
      let acc1 :=
        match page.contents with
        | none => acc
        | some keys => acc ++ keys.filter (fun key => key ≠ marker)
      match page.commonPfxs with
      | none => acc1
      | some entries =>
          acc1 ++ (entries.map CommonPfxEntry.pfxVal).filter (fun p => p ≠ marker))
    []

/-- Method `listFolderContents` (lines 230-270): raise (`Except.error`)
when `folderExists` is false; otherwise paginate `list_objects_v2` with
`Prefix = folderPath + "/"` and delimiter `'/'`, collecting keys and
common prefixes other than the marker; a `ClientError` from the listing is
logged and yields `[]`. -/
def listFolderContents (self : Wrapper) (env : Env) (folderPath : String) :
    Except String (List String) × Wrapper :=
  (if (folderExists self env folderPath).1 = false then
     Except.error ("Folder " ++ folderPath ++ " does not exist")
   else
     match env.listObjectsV2Pages self.bucket_name (folderPath ++ "/") "/" with
     | .err _ => Except.ok []
     | .ok pages => Except.ok (listFolderContentsCollect (folderPath ++ "/") pages),
   self)

/-- Method `streamFileContent` (lines 272-292): GET the object and yield
successive `read(chunkSize)` chunks of its body until exhausted; on a
`ClientError` the generator logs and yields nothing. The fully drained
generator is modelled as the list of chunks. -/
def streamFileContent (self : Wrapper) (env : Env) (filePath : String)
    (chunkSize : Nat) : List (List Nat) × Wrapper :=
  (match env.getObject self.bucket_name filePath with
   | .ok body => chunks chunkSize body
   | .err _ => [],
   self)

/-- Method `readFile` (lines 294-317): same body as `streamFileContent`
(only the default chunk size differs). -/
def readFile (self : Wrapper) (env : Env) (filePath : String)
    (chunkSize : Nat) : List (List Nat) × Wrapper :=
  (match env.getObject self.bucket_name filePath with
   | .ok body => chunks chunkSize body
   | .err _ => [],
   self)

/-- Method `multipartUpload` (lines 319-334): `create_multipart_upload`
and return its `UploadId`, or `None` after logging a `ClientError`. -/
def multipartUpload (self : Wrapper) (env : Env) (filePath : String) :
    Option String × Wrapper :=
  (match env.createMultipartUploadId self.bucket_name filePath with
   | .ok uid => some uid
   | .err _ => none,
   self)

/-- Method `connectToBucket` (lines 37-60): `head_bucket` on the given
name (or the configured one); returns the name on success, and `None`
(after a printed message, `'404'` or otherwise) on a `ClientError`. -/
def connectToBucket (self : Wrapper) (env : Env) (bucketName : Option String) :
    Option String × Wrapper :=
  (match env.headBucket (bucketName.getD self.bucket_name) with
   | .ok _ => some (bucketName.getD self.bucket_name)
   | .err code => if code = "404" then none else none,
   self)

/-- Method `createBucket` (lines 74-86): `create_bucket` on the configured
name; every outcome (success, benign `BucketAlreadyOwnedByYou`, other
error) only prints. -/
def createBucket (self : Wrapper) (env : Env) : Unit × Wrapper :=
  (match env.createBucketResult self.bucket_name with
   | .ok _ => ()
   | .err _ => (),
   self)

/-- Method `listBuckets` (lines 62-72): `list_buckets` and print the
names; errors are printed. No value is returned. -/
def listBuckets (self : Wrapper) (env : Env) : Unit × Wrapper :=
  (match env.listBucketNames with
   | .ok _ => ()
   | .err _ => (),
   self)

/-- Python `str.split(sep)` for a one-character separator, on the
character list, with the accumulator holding the current (reversed)
segment: splitting never drops segments, so the result is always
nonempty. -/
def pySplitAux (sep : Char) : List Char → List Char → List (List Char)
  | [], acc => [acc.reverse]
  | ch :: rest, acc =>
      if ch = sep then acc.reverse :: pySplitAux sep rest []
      else pySplitAux sep rest (ch :: acc)

/-- Python `s.split(sep)` for a one-character separator string. -/
def pySplit (sep : Char) (s : List Char) : List (List Char) :=
  pySplitAux sep s []

/-- Method `getActualFileNames` (lines 368-384): for each path, take
`path.split("/")[-1]`. (The source defines it without a `self` parameter,
so it is a plain function of the path list.) -/
def getActualFileNames (filePaths : List String) : List String :=
  filePaths.map (fun path => String.mk ((pySplit '/' path.data).getLastD []))

/-- Whether a request belongs to the multipart machinery (session
creation, part upload or completion). -/
def S3Op.isMultipart : S3Op → Bool
  | .putObject _ => false
  | _ => true

/-- Bodies of the `upload_part` requests of a trace, in issue order. -/
def submittedChunks (ops : List S3Op) : List (List Nat) :=
  ops.filterMap (fun op =>
    match op with
    | .uploadPart _ _ _ b => some b
    | _ => none)

/-- Part numbers of the `upload_part` requests of a trace, in issue order. -/
def uploadPartNumbers (ops : List S3Op) : List Nat :=
  ops.filterMap (fun op =>
    match op with
    | .uploadPart _ _ n _ => some n
    | _ => none)

/-- The `(PartNumber, ETag)` list of the first completion request for
`key` in a trace, if any. -/
def completionParts (ops : List S3Op) (key : String) : Option (List (Nat × String)) :=
  ops.findSome? (fun op =>
    match op with
    | .completeMultipartUpload _ k parts => if k = key then some parts else none
    | _ => none)

/-- Body of the first `upload_part` request with the given part number in
a trace, if any. -/
def partBodyAt (ops : List S3Op) (n : Nat) : Option (List Nat) :=
  ops.findSome? (fun op =>
    match op with
    | .uploadPart _ _ m b => if m = n then some b else none
    | _ => none)

/-- Content of the object a trace produces at `key` through the multipart
protocol: the concatenation, in the order listed by the completion
request, of the bodies of the parts whose numbers it lists. -/
def completedObjectContent (ops : List S3Op) (key : String) : Option (List Nat) :=
  (completionParts ops key).map
    (fun parts => (parts.map (fun pr => (partBodyAt ops pr.1).getD [])).flatten)

/-- Part numbers listed by the first completion request for `key`,
in the order listed. -/
def completionPartNumbers (ops : List S3Op) (key : String) : Option (List Nat) :=
  (completionParts ops key).map (fun parts => parts.map Prod.fst)

/-- A concrete remote environment for witnesses: every call succeeds. -/
def envDemo : Env where
  headBucket := fun _ => .ok ()
  headObject := fun _ _ => .ok ()
  listObjectsPages := fun _ _ => .ok []
  listObjectsV2Pages := fun _ _ _ => .ok []
  getObject := fun _ _ => .ok []
  createMultipartUploadId := fun _ _ => .ok "uid"
  createBucketResult := fun _ => .ok ()
  listBucketNames := .ok []
  partETag := fun n _ => "etag" ++ toString n

/-- A concrete client instance for witnesses. -/
def wDemo : Wrapper := mkWrapper "nyc3" "keyid" "secret" "demo"

/-- Environment in which every `head_object` fails with a 404 ClientError. -/
def env404 : Env :=
  { envDemo with headObject := fun _ _ => RemoteResult.err "404" }

/-- Environment in which objects exist but every v2 listing fails with a
non-404 ClientError. -/
def envListErr : Env :=
  { envDemo with listObjectsV2Pages := fun _ _ _ => RemoteResult.err "500" }

/-- Environment holding an existing, empty folder: the listing returns
only the folder's own marker key. -/
def envEmptyFolder : Env :=
  { envDemo with
    listObjectsV2Pages := fun _ pfx _ =>
      RemoteResult.ok [{ contents := some [pfx], commonPfxs := none }] }

/-- Environment of the C5 scenario: the bucket holds `a/b/c/file.txt`, so
the delimiter listing under `a/` reports the common prefix `a/b/` (as the
dict entry `{'Prefix': 'a/b/'}`) and no immediate objects. -/
def envNested : Env :=
  { envDemo with
    listObjectsV2Pages := fun _ pfx _ =>
      if pfx = "a/" then
        RemoteResult.ok [{ contents := none, commonPfxs := some [{ pfxVal := "a/b/" }] }]
      else RemoteResult.ok [] }

/-- Environment of the C7 scenario: the bucket holds the single object
`ab.txt`; S3 prefix filtering is plain string-prefix matching, so listing
with the character prefix `a` returns it (modelled at the one prefix the
scenario queries). -/
def envSibling : Env :=
  { envDemo with
    listObjectsPages := fun _ pfx =>
      RemoteResult.ok (if pfx = "a" then [some ["ab.txt"]] else []) }

/-- Specification reading of "the substring of the path after its last
`/`": the longest suffix of the path containing no `/`. -/
def afterLastSlash (s : String) : String :=
  String.mk ((s.data.reverse.takeWhile (fun x => x != '/')).reverse)

theorem chunks_nil (c : Nat) : chunks c [] = [] := by
  unfold chunks
  simp

theorem chunks_zero (d : List Nat) : chunks 0 d = [] := by
  unfold chunks
  simp

theorem chunks_cons {c : Nat} {d : List Nat} (hc : c ≠ 0) (hd : d ≠ []) :
    chunks c d = d.take c :: chunks c (d.drop c) := by
  rw [chunks]
  simp [hc, hd]

theorem uploadLoop_stop {etag : Nat → List Nat → String} {bucket key : String}
    {c : Nat} {d : List Nat} {pn : Nat} {parts : List (Nat × String)}
    (h : c = 0 ∨ d = []) :
    uploadLoop etag bucket key c d pn parts = ([], parts) := by
  rw [uploadLoop]
  simp [h]

theorem uploadLoop_step {etag : Nat → List Nat → String} {bucket key : String}
    {c : Nat} {d : List Nat} {pn : Nat} {parts : List (Nat × String)}
    (hc : c ≠ 0) (hd : d ≠ []) :
    uploadLoop etag bucket key c d pn parts =
      (S3Op.uploadPart bucket key pn (d.take c) ::
        (uploadLoop etag bucket key c (d.drop c) (pn + 1)
          (parts ++ [(pn, etag pn (d.take c))])).1,
       (uploadLoop etag bucket key c (d.drop c) (pn + 1)
          (parts ++ [(pn, etag pn (d.take c))])).2) := by
  rw [uploadLoop]
  simp [hc, hd]

theorem chunks_flatten {c : Nat} (hc : 1 ≤ c) (d : List Nat) :
    (chunks c d).flatten = d := by
  have key : ∀ (n : Nat) (d : List Nat), d.length ≤ n → (chunks c d).flatten = d := by
    intro n
    induction n with
    | zero =>
        intro d hd
        have hnil : d = [] := List.eq_nil_of_length_eq_zero (Nat.le_zero.mp hd)
        subst hnil
        simp [chunks_nil]
    | succ n ih =>
        intro d hd
        by_cases hdn : d = []
        · subst hdn; simp [chunks_nil]
        · rw [chunks_cons (by omega) hdn, List.flatten_cons,
            ih (d.drop c) (by
              have hpos : 0 < d.length := List.length_pos.mpr hdn
              simp only [List.length_drop]
              omega)]
          exact List.take_append_drop c d
  exact key d.length d le_rfl

theorem uploadLoop_spec {etag : Nat → List Nat → String} {bucket key : String}
    {c : Nat} (hc : 1 ≤ c) (d : List Nat) (pn : Nat) (parts : List (Nat × String)) :
    uploadLoop etag bucket key c d pn parts =
      ((List.enumFrom pn (chunks c d)).map
         (fun p => S3Op.uploadPart bucket key p.1 p.2),
       parts ++ (List.enumFrom pn (chunks c d)).map
         (fun p => (p.1, etag p.1 p.2))) := by
  have key0 : ∀ (n : Nat) (d : List Nat) (pn : Nat) (parts : List (Nat × String)),
      d.length ≤ n →
      uploadLoop etag bucket key c d pn parts =
        ((List.enumFrom pn (chunks c d)).map
           (fun p => S3Op.uploadPart bucket key p.1 p.2),
         parts ++ (List.enumFrom pn (chunks c d)).map
           (fun p => (p.1, etag p.1 p.2))) := by
    intro n
    induction n with
    | zero =>
        intro d pn parts hd
        have hnil : d = [] := List.eq_nil_of_length_eq_zero (Nat.le_zero.mp hd)
        subst hnil
        rw [uploadLoop_stop (Or.inr rfl)]
        simp [chunks_nil]
    | succ n ih =>
        intro d pn parts hd
        by_cases hdn : d = []
        · subst hdn
          rw [uploadLoop_stop (Or.inr rfl)]
          simp [chunks_nil]
        · rw [uploadLoop_step (by omega) hdn,
            ih (d.drop c) (pn + 1) (parts ++ [(pn, etag pn (d.take c))]) (by
              have hpos : 0 < d.length := List.length_pos.mpr hdn
              simp only [List.length_drop]
              omega),
            chunks_cons (by omega) hdn]
          simp [List.enumFrom]
  exact key0 d.length d pn parts le_rfl

theorem enumFrom_map_snd {α : Type} : ∀ (n : Nat) (l : List α),
    (List.enumFrom n l).map Prod.snd = l
  | _, [] => rfl
  | n, a :: as => by
      simp only [List.enumFrom, List.map_cons]
      rw [enumFrom_map_snd]

theorem enumFrom_map_fst {α : Type} : ∀ (n : Nat) (l : List α),
    (List.enumFrom n l).map Prod.fst = List.range' n l.length
  | _, [] => rfl
  | n, a :: as => by
      simp only [List.enumFrom, List.map_cons, List.length_cons, List.range']
      rw [enumFrom_map_fst]

theorem findSome?_cons_none {α β : Type} {f : α → Option β} {a : α} {l : List α}
    (h : f a = none) :
    List.findSome? f (a :: l) = List.findSome? f l := by
  rw [List.findSome?_cons, h]

theorem findSome?_append_of_none {α β : Type} {f : α → Option β} {l₁ l₂ : List α}
    (h : ∀ x ∈ l₁, f x = none) :
    List.findSome? f (l₁ ++ l₂) = List.findSome? f l₂ := by
  induction l₁ with
  | nil => rfl
  | cons a as ih =>
      rw [List.cons_append, List.findSome?_cons, h a (by simp)]
      exact ih (fun x hx => h x (by simp [hx]))

/-- Shape of the request trace of `uploadFileChunked` on a readable
source: session creation, one `upload_part` per chunk numbered from 1,
then one completion listing the `(PartNumber, ETag)` pairs in the same
order. -/
theorem uploadFileChunked_readable_ops (self : Wrapper) (env : Env)
    (filePath : String) (d : List Nat) {c : Nat} (hc : 1 ≤ c) :
    (uploadFileChunked self env filePath (FileData.readable d) c).1 =
      S3Op.createMultipartUpload self.bucket_name filePath ::
        ((List.enumFrom 1 (chunks c d)).map
          (fun p => S3Op.uploadPart self.bucket_name filePath p.1 p.2)
        ++ [S3Op.completeMultipartUpload self.bucket_name filePath
            ((List.enumFrom 1 (chunks c d)).map
              (fun p => (p.1, env.partETag p.1 p.2)))]) := by
  simp [uploadFileChunked, uploadLoop_spec hc]

theorem submittedChunks_readable (self : Wrapper) (env : Env)
    (filePath : String) (d : List Nat) {c : Nat} (hc : 1 ≤ c) :
    submittedChunks (uploadFileChunked self env filePath (FileData.readable d) c).1 =
      chunks c d := by
  rw [uploadFileChunked_readable_ops self env filePath d hc]
  simp only [submittedChunks, List.filterMap_cons, List.filterMap_append,
    List.filterMap_map]
  simp only [Function.comp_def]
  have hsome : (fun p : Nat × List Nat => some p.2) = some ∘ Prod.snd := rfl
  rw [hsome, List.filterMap_eq_map, enumFrom_map_snd]
  simp

theorem uploadPartNumbers_readable (self : Wrapper) (env : Env)
    (filePath : String) (d : List Nat) {c : Nat} (hc : 1 ≤ c) :
    uploadPartNumbers (uploadFileChunked self env filePath (FileData.readable d) c).1 =
      List.range' 1 (chunks c d).length := by
  rw [uploadFileChunked_readable_ops self env filePath d hc]
  simp only [uploadPartNumbers, List.filterMap_cons, List.filterMap_append,
    List.filterMap_map]
  simp only [Function.comp_def]
  have hsome : (fun p : Nat × List Nat => some p.1) = some ∘ Prod.fst := rfl
  rw [hsome, List.filterMap_eq_map, enumFrom_map_fst]
  simp

theorem completionParts_readable (self : Wrapper) (env : Env)
    (filePath : String) (d : List Nat) {c : Nat} (hc : 1 ≤ c) :
    completionParts (uploadFileChunked self env filePath (FileData.readable d) c).1
        filePath =
      some ((List.enumFrom 1 (chunks c d)).map
        (fun p => (p.1, env.partETag p.1 p.2))) := by
  rw [uploadFileChunked_readable_ops self env filePath d hc]
  rw [completionParts, List.findSome?_cons]
  rw [findSome?_append_of_none (by
    intro x hx
    obtain ⟨p, _, rfl⟩ := List.mem_map.mp hx
    rfl)]
  simp

theorem findSome?_partMatcher {bucket key : String} :
    ∀ (l : List (List Nat)) (start i : Nat), i < l.length →
      List.findSome? (fun op =>
        match op with
        | S3Op.uploadPart _ _ m b => if m = start + i then some b else none
        | _ => none)
        ((List.enumFrom start l).map (fun p => S3Op.uploadPart bucket key p.1 p.2)) =
        l[i]? := by
  intro l
  induction l with
  | nil => intro start i hi; simp at hi
  | cons a as ih =>
      intro start i hi
      simp only [List.enumFrom, List.map_cons, List.findSome?_cons]
      cases i with
      | zero => simp
      | succ j =>
          have hne : ¬ start = start + (j + 1) := by omega
          simp only [hne, if_false]
          have harith : start + (j + 1) = (start + 1) + j := by omega
          rw [harith, ih (start + 1) j (by simpa using hi)]
          simp

theorem map_getD_lookup :
    ∀ (l : List (List Nat)) (start : Nat) (f : Nat → Option (List Nat)),
      (∀ i, i < l.length → f (start + i) = l[i]?) →
      (List.enumFrom start l).map (fun p => (f p.1).getD []) = l := by
  intro l
  induction l with
  | nil => intro start f _; rfl
  | cons a as ih =>
      intro start f h
      simp only [List.enumFrom, List.map_cons]
      have h0 : f start = some a := by
        have := h 0 (by simp)
        simpa using this
      rw [h0]
      rw [ih (start + 1) f (by
        intro i hi
        have := h (i + 1) (by simp; omega)
        have harith : start + (i + 1) = (start + 1) + i := by omega
        rw [harith] at this
        simpa using this)]
      rfl

theorem partBodyAt_readable (self : Wrapper) (env : Env)
    (filePath : String) (d : List Nat) {c : Nat} (hc : 1 ≤ c)
    (i : Nat) (hi : i < (chunks c d).length) :
    partBodyAt (uploadFileChunked self env filePath (FileData.readable d) c).1
      (1 + i) = (chunks c d)[i]? := by
  rw [uploadFileChunked_readable_ops self env filePath d hc]
  rw [partBodyAt, findSome?_cons_none rfl, List.findSome?_append,
    findSome?_partMatcher (chunks c d) 1 i hi]
  have hsome : ∃ b, (chunks c d)[i]? = some b :=
    ⟨(chunks c d)[i], List.getElem?_eq_getElem hi⟩
  obtain ⟨b, hb⟩ := hsome
  rw [hb]
  rfl

theorem completedObjectContent_readable (self : Wrapper) (env : Env)
    (filePath : String) (d : List Nat) {c : Nat} (hc : 1 ≤ c) :
    completedObjectContent
        (uploadFileChunked self env filePath (FileData.readable d) c).1 filePath =
      some (chunks c d).flatten := by
  rw [completedObjectContent, completionParts_readable self env filePath d hc]
  rw [Option.map_some']
  rw [List.map_map]
  have hmain := map_getD_lookup (chunks c d) 1
    (fun n => partBodyAt
      (uploadFileChunked self env filePath (FileData.readable d) c).1 n)
    (fun i hi => partBodyAt_readable self env filePath d hc i hi)
  simp only [Function.comp_def] at hmain ⊢
  rw [hmain]

theorem chunks_replicate {c n : Nat} (a : Nat) (hc : c ≠ 0) (hn : n ≠ 0) :
    chunks c (List.replicate n a) =
      List.replicate (min c n) a :: chunks c (List.replicate (n - c) a) := by
  rw [chunks_cons hc (by simpa using hn), List.take_replicate, List.drop_replicate]

/-- The 20 MiB payload of the concrete scenario splits at 8 MiB chunk size
into chunks of 8 MiB, 8 MiB and 4 MiB. -/
theorem chunks_replicate_20MiB :
    chunks 8388608 (List.replicate 20971520 (0 : Nat)) =
      [List.replicate 8388608 (0 : Nat), List.replicate 8388608 0,
       List.replicate 4194304 0] := by
  rw [chunks_replicate 0 (by norm_num) (by norm_num)]
  norm_num
  rw [chunks_replicate 0 (by norm_num) (by norm_num)]
  norm_num
  rw [chunks_replicate 0 (by norm_num) (by norm_num)]
  norm_num
  exact chunks_nil _

/-- Claim C1: for every payload `d` presented as a readable source and
every chunk size `c ≥ 1`, `uploadFileChunked` produces an object at
`filePath` whose content equals `d` exactly: the concatenation, in
submission order, of the chunks read from the source and submitted as
parts equals `d`, and the content assembled by the completion request
equals `d`, including when `d.length` is not a multiple of `c`. -/
theorem claim_C1 (self : Wrapper) (env : Env) (filePath : String)
    (d : List Nat) (c : Nat) (hc : 1 ≤ c) :
    (submittedChunks
        (uploadFileChunked self env filePath (FileData.readable d) c).1).flatten = d ∧
    completedObjectContent
        (uploadFileChunked self env filePath (FileData.readable d) c).1 filePath =
      some d := by
  constructor
  · rw [submittedChunks_readable self env filePath d hc, chunks_flatten hc]
  · rw [completedObjectContent_readable self env filePath d hc, chunks_flatten hc]

/-- Witness for C1 at payload `[1,2,3,4,5]` and chunk size 2 (payload
length not a multiple of the chunk size). -/
theorem claim_C1_witness :
    1 ≤ 2 ∧
    ((submittedChunks
        (uploadFileChunked wDemo envDemo "f.bin"
          (FileData.readable [1, 2, 3, 4, 5]) 2).1).flatten = [1, 2, 3, 4, 5] ∧
     completedObjectContent
        (uploadFileChunked wDemo envDemo "f.bin"
          (FileData.readable [1, 2, 3, 4, 5]) 2).1 "f.bin" =
       some [1, 2, 3, 4, 5]) :=
  ⟨by norm_num,
   claim_C1 wDemo envDemo "f.bin" [1, 2, 3, 4, 5] 2 (by norm_num)⟩

/-- Claim C2: on a readable source, parts are submitted with strictly
incrementing 1-based contiguous sequence numbers starting at 1, and the
completion request lists the `(PartNumber, ETag)` pairs in exactly that
ascending submission order; for a 20 MiB source and 8 MiB chunk size,
exactly 3 parts of sizes 8 MiB, 8 MiB and 4 MiB are submitted and the
completion lists parts `[1, 2, 3]`. -/
theorem claim_C2 (self : Wrapper) (env : Env) (filePath : String)
    (d : List Nat) (c : Nat) (hc : 1 ≤ c) :
    uploadPartNumbers
        (uploadFileChunked self env filePath (FileData.readable d) c).1 =
      List.range' 1 (chunks c d).length ∧
    completionParts
        (uploadFileChunked self env filePath (FileData.readable d) c).1 filePath =
      some ((List.enumFrom 1 (chunks c d)).map
        (fun p => (p.1, env.partETag p.1 p.2))) ∧
    completionPartNumbers
        (uploadFileChunked self env filePath (FileData.readable d) c).1 filePath =
      some (List.range' 1 (chunks c d).length) ∧
    (submittedChunks
        (uploadFileChunked self env "reports/2024/jan.csv"
          (FileData.readable (List.replicate 20971520 0)) 8388608).1).map
        List.length = [8388608, 8388608, 4194304] ∧
    completionPartNumbers
        (uploadFileChunked self env "reports/2024/jan.csv"
          (FileData.readable (List.replicate 20971520 0)) 8388608).1
        "reports/2024/jan.csv" = some [1, 2, 3] := by
  refine ⟨uploadPartNumbers_readable self env filePath d hc,
          completionParts_readable self env filePath d hc, ?_, ?_, ?_⟩
  · rw [completionPartNumbers, completionParts_readable self env filePath d hc,
      Option.map_some', List.map_map]
    rw [show (Prod.fst ∘ fun p : Nat × List Nat => (p.1, env.partETag p.1 p.2)) = Prod.fst from rfl]
    rw [enumFrom_map_fst]
  · rw [submittedChunks_readable self env "reports/2024/jan.csv"
      (List.replicate 20971520 0) (by norm_num), chunks_replicate_20MiB]
    simp only [List.map_cons, List.map_nil, List.length_replicate]
  · rw [completionPartNumbers, completionParts_readable self env "reports/2024/jan.csv"
      (List.replicate 20971520 0) (by norm_num), Option.map_some', List.map_map]
    rw [show (Prod.fst ∘ fun p : Nat × List Nat => (p.1, env.partETag p.1 p.2)) = Prod.fst from rfl]
    rw [enumFrom_map_fst, chunks_replicate_20MiB]
    rfl

/-- Witness for C2 at payload `[7, 7, 7]` and chunk size 2. -/
theorem claim_C2_witness :
    1 ≤ 2 ∧
    (uploadPartNumbers
        (uploadFileChunked wDemo envDemo "f.bin"
          (FileData.readable [7, 7, 7]) 2).1 =
      List.range' 1 (chunks 2 [7, 7, 7]).length ∧
     completionParts
        (uploadFileChunked wDemo envDemo "f.bin"
          (FileData.readable [7, 7, 7]) 2).1 "f.bin" =
      some ((List.enumFrom 1 (chunks 2 [7, 7, 7])).map
        (fun p => (p.1, envDemo.partETag p.1 p.2))) ∧
     completionPartNumbers
        (uploadFileChunked wDemo envDemo "f.bin"
          (FileData.readable [7, 7, 7]) 2).1 "f.bin" =
      some (List.range' 1 (chunks 2 [7, 7, 7]).length) ∧
     (submittedChunks
        (uploadFileChunked wDemo envDemo "reports/2024/jan.csv"
          (FileData.readable (List.replicate 20971520 0)) 8388608).1).map
        List.length = [8388608, 8388608, 4194304] ∧
     completionPartNumbers
        (uploadFileChunked wDemo envDemo "reports/2024/jan.csv"
          (FileData.readable (List.replicate 20971520 0)) 8388608).1
        "reports/2024/jan.csv" = some [1, 2, 3]) :=
  ⟨by norm_num, claim_C2 wDemo envDemo "f.bin" [7, 7, 7] 2 (by norm_num)⟩

/-- Claim C3: for a finite byte buffer payload, `uploadFileChunked`
performs exactly one single-call `put_object` of the whole payload and
issues no multipart operation. -/
theorem claim_C3 (self : Wrapper) (env : Env) (filePath : String)
    (b : List Nat) (c : Nat) :
    (uploadFileChunked self env filePath (FileData.bytes b) c).1 =
      [S3Op.putObject
        { bucket := self.bucket_name, key := filePath, body := b,
          acl := none, cacheControl := none, serverSideEncryption := none }] ∧
    ∀ op ∈ (uploadFileChunked self env filePath (FileData.bytes b) c).1,
      op.isMultipart = false := by
  refine ⟨rfl, ?_⟩
  intro op hop
  simp only [uploadFileChunked, List.mem_singleton] at hop
  subst hop
  rfl

/-- Claim C6: `folderExists p` and `fileExists p` return `True` exactly
when the `head_object` request on the corresponding key (`p + "/"` for
folders, `p` for files) succeeds; on a 404 ClientError they return
`False`, and on any other ClientError they also return `False` after
logging. (They are Bool-valued and raise nothing: every `ClientError` is
caught.) -/
theorem claim_C6 (self : Wrapper) (env : Env) (p q : String) :
    ((folderExists self env p).1 = true ↔
      (env.headObject self.bucket_name (p ++ "/")).isOk = true) ∧
    ((fileExists self env q).1 = true ↔
      (env.headObject self.bucket_name q).isOk = true) ∧
    (∀ code, env.headObject self.bucket_name (p ++ "/") = RemoteResult.err code →
      (folderExists self env p).1 = false) ∧
    (∀ code, env.headObject self.bucket_name q = RemoteResult.err code →
      (fileExists self env q).1 = false) := by
  refine ⟨?_, ?_, ?_, ?_⟩
  · rw [folderExists]
    cases h : env.headObject self.bucket_name (p ++ "/") <;>
      simp [RemoteResult.isOk, ite_self]
  · rw [fileExists]
    cases h : env.headObject self.bucket_name q <;>
      simp [RemoteResult.isOk, ite_self]
  · intro code hcode
    simp [folderExists, hcode, ite_self]
  · intro code hcode
    simp [fileExists, hcode, ite_self]

/-- Witness for C6: in an environment whose head requests fail with 404,
both existence checks at concrete paths return `false`. -/
theorem claim_C6_witness :
    (folderExists wDemo env404 "f").1 = false ∧
    (fileExists wDemo env404 "f.txt").1 = false :=
  ⟨(claim_C6 wDemo env404 "f" "f.txt").2.2.1 "404" rfl,
   (claim_C6 wDemo env404 "f" "f.txt").2.2.2 "404" rfl⟩

/-- Counterexample to claim C4 as stated: C4 asserts every failure mode
of `listFolderContents` other than folder non-existence does not return a
result indistinguishable from an empty folder; but in `envListErr` the
folder exists and the listing fails with a ClientError, yet the call
returns `ok []` — the very result returned for the existing empty folder
of `envEmptyFolder`. -/
theorem claim_C4_counterexample :
    (folderExists wDemo envListErr "f").1 = true ∧
    (listFolderContents wDemo envListErr "f").1 = Except.ok [] ∧
    (listFolderContents wDemo envEmptyFolder "f").1 = Except.ok [] := by
  refine ⟨rfl, rfl, ?_⟩
  rfl

/-- Claim C4 (amended): `listFolderContents` raises an error to the
caller whenever `folderExists` is false, rather than returning an empty
list; however a ClientError from the listing after a successful existence
check is swallowed and yields `ok []`, indistinguishable from an existing
empty folder. -/
theorem claim_C4_amended (self : Wrapper) (env : Env) (p : String) :
    ((folderExists self env p).1 = false →
      (listFolderContents self env p).1 =
        Except.error ("Folder " ++ p ++ " does not exist")) ∧
    ((folderExists self env p).1 = true →
      ∀ code,
        env.listObjectsV2Pages self.bucket_name (p ++ "/") "/" =
          RemoteResult.err code →
        (listFolderContents self env p).1 = Except.ok []) := by
  constructor
  · intro h
    simp [listFolderContents, h]
  · intro h code hcode
    simp [listFolderContents, h, hcode]

/-- Witness for the amended C4: a nonexistent folder raises; an existing
folder with a failing listing returns the empty list. -/
theorem claim_C4_witness :
    ((folderExists wDemo env404 "g").1 = false ∧
     (listFolderContents wDemo env404 "g").1 =
       Except.error ("Folder " ++ "g" ++ " does not exist")) ∧
    ((folderExists wDemo envListErr "f").1 = true ∧
     (listFolderContents wDemo envListErr "f").1 = Except.ok []) :=
  ⟨⟨rfl, (claim_C4_amended wDemo env404 "g").1 rfl⟩,
   ⟨rfl, (claim_C4_amended wDemo envListErr "f").2 rfl "500" rfl⟩⟩

/-- Claim C5 (behavior of the code at the claim's scenario): on a bucket
holding `a/b/c/file.txt`, `listFolders "a/"` does not return the
immediate child folder names: the page loop evaluates
`entry.replace(entry, '')` with the loop variable shadowing the method's
parameter and ranging over the `CommonPrefixes` dict entries, so the
attribute access raises `AttributeError`, which the `except ClientError`
handler does not catch. (On a remote ClientError the method does return
`[]`, as the claim's last clause states.) -/
theorem claim_C5 :
    (listFolders wDemo envNested "a/").1 = Except.error "AttributeError" ∧
    (listFolders wDemo envListErr "a/").1 = Except.ok [] :=
  ⟨rfl, rfl⟩

/-- Counterexample to claim C7 as stated: `deleteFolder "a"` lists with
prefix `a` — no `/` is appended in `deleteFolder` — and so deletes the
sibling object `ab.txt`, whose key does not begin with `a/`. -/
theorem claim_C7_counterexample :
    (deleteFolder wDemo envSibling "a").1 = [["ab.txt"]] ∧
    "ab.txt".data.take 2 ≠ "a/".data :=
  ⟨rfl, by decide⟩

/-- Claim C7 (amended): `createFolder`, `folderExists` and
`listFolderContents` append `/` to the folder path internally —
`createFolder` writes the zero-byte marker at `p + "/"`, `folderExists`
heads `p + "/"`, and `listFolderContents` depends on the remote service
only through the head responses and the listing at prefix `p + "/"` —
but `deleteFolder` uses the path itself, without a trailing slash, as its
listing prefix, so `deleteFolder "a"` also affects a sibling key such as
`ab.txt`. -/
theorem claim_C7_amended (self : Wrapper) (env : Env) (p : String) :
    (createFolder self p).1 =
      { bucket := self.bucket_name, key := p ++ "/", body := [],
        acl := none, cacheControl := none, serverSideEncryption := none } ∧
    (folderExists self env p).1 =
      (env.headObject self.bucket_name (p ++ "/")).isOk ∧
    (∀ env' : Env, env'.headObject = env.headObject →
      env'.listObjectsV2Pages self.bucket_name (p ++ "/") "/" =
        env.listObjectsV2Pages self.bucket_name (p ++ "/") "/" →
      listFolderContents self env' p = listFolderContents self env p) ∧
    (deleteFolder self env p).1 =
      (match env.listObjectsPages self.bucket_name p with
       | RemoteResult.ok pages => pages.filterMap id
       | RemoteResult.err _ => []) := by
  refine ⟨rfl, ?_, ?_, rfl⟩
  · rw [folderExists]
    cases h : env.headObject self.bucket_name (p ++ "/") <;>
      simp [RemoteResult.isOk, ite_self]
  · intro env' h1 h2
    simp only [listFolderContents, folderExists, h1, h2]

/-- Witness for the amended C7 at a concrete instance: the marker key
carries the slash; the sibling-prefix listing of `envSibling` drives
`deleteFolder`. -/
theorem claim_C7_witness :
    (createFolder wDemo "a").1 =
      { bucket := "demo", key := "a/", body := [],
        acl := none, cacheControl := none, serverSideEncryption := none } ∧
    (folderExists wDemo envSibling "a").1 =
      (envSibling.headObject "demo" "a/").isOk ∧
    listFolderContents wDemo envSibling "a" = listFolderContents wDemo envSibling "a" ∧
    (deleteFolder wDemo envSibling "a").1 =
      (match envSibling.listObjectsPages "demo" "a" with
       | RemoteResult.ok pages => pages.filterMap id
       | RemoteResult.err _ => []) :=
  ⟨(claim_C7_amended wDemo envSibling "a").1,
   (claim_C7_amended wDemo envSibling "a").2.1,
   (claim_C7_amended wDemo envSibling "a").2.2.1 envSibling rfl rfl,
   (claim_C7_amended wDemo envSibling "a").2.2.2⟩

/-- Counterexample to claim C8 as stated: the object-write requests carry
none of the derived fixed settings — `put_object` is called with only
`Bucket`, `Key` and `Body` — and the retry-policy attributes are never
passed to the transport `Config`, which receives only the addressing
style. -/
theorem claim_C8_counterexample :
    (uploadFile wDemo "k.txt" [7]).1.acl ≠ some "public-read-write" ∧
    (uploadFile wDemo "k.txt" [7]).1.cacheControl ≠ some "max-age=86400" ∧
    (uploadFile wDemo "k.txt" [7]).1.serverSideEncryption ≠ some "AES256" ∧
    wDemo.clientConfig.transportRetries ≠ some (5, "standard") := by
  refine ⟨?_, ?_, ?_, ?_⟩ <;> simp [uploadFile, wDemo, mkWrapper]

/-- Claim C8 (amended): the client stores the derived fixed settings as
instance attributes (cache-control `max-age=86400`, ACL
`public-read-write`, SSE `AES256`, retries 5 attempts / standard mode)
and constructs the transport with addressing style `virtual`; however the
object-write requests carry none of these settings, and the retry policy
is not passed to the transport configuration. -/
theorem claim_C8_amended (region keyId secretKey bucketName p : String)
    (d : List Nat) :
    (mkWrapper region keyId secretKey bucketName).clientConfig.s3AddressingStyle =
      some "virtual" ∧
    (mkWrapper region keyId secretKey bucketName).object_parameters =
      [("CacheControl", "max-age=86400")] ∧
    (mkWrapper region keyId secretKey bucketName).default_acl =
      "public-read-write" ∧
    (mkWrapper region keyId secretKey bucketName).encryption_scheme =
      [("ServerSideEncryption", "AES256")] ∧
    (mkWrapper region keyId secretKey bucketName).retries_max_attempts = 5 ∧
    (mkWrapper region keyId secretKey bucketName).retries_mode = "standard" ∧
    (mkWrapper region keyId secretKey bucketName).clientConfig.transportRetries =
      none ∧
    (uploadFile (mkWrapper region keyId secretKey bucketName) p d).1 =
      { bucket := bucketName, key := p, body := d,
        acl := none, cacheControl := none, serverSideEncryption := none } :=
  ⟨rfl, rfl, rfl, rfl, rfl, rfl, rfl, rfl⟩

/-- Claim C9: the connection configuration is immutable after
construction — every public operation returns the instance state
unchanged, whatever its arguments and whatever the remote outcome (the
source assigns to `self` only in `__init__`). -/
theorem claim_C9 (self : Wrapper) (env : Env) (b : Option String)
    (p q : String) (d : List Nat) (fd : FileData) (c : Nat) :
    (connectToBucket self env b).2 = self ∧
    (listBuckets self env).2 = self ∧
    (createBucket self env).2 = self ∧
    (createFolder self p).2 = self ∧
    (folderExists self env p).2 = self ∧
    (fileExists self env p).2 = self ∧
    (uploadFile self p d).2 = self ∧
    (updateFile self p d).2 = self ∧
    (deleteFile self p).2 = self ∧
    (deleteFolder self env p).2 = self ∧
    (listFolders self env q).2 = self ∧
    (listFolderContents self env p).2 = self ∧
    (streamFileContent self env p c).2 = self ∧
    (readFile self env p c).2 = self ∧
    (multipartUpload self env p).2 = self ∧
    (uploadFileChunked self env p fd c).2 = self :=
  ⟨rfl, rfl, rfl, rfl, rfl, rfl, rfl, rfl, rfl, rfl, rfl, rfl, rfl, rfl, rfl, rfl⟩

theorem pySplitAux_ne_nil (sep : Char) :
    ∀ (l acc : List Char), pySplitAux sep l acc ≠ [] := by
  intro l
  induction l with
  | nil => intro acc; simp [pySplitAux]
  | cons c rest ih =>
      intro acc
      by_cases hc : c = sep
      · simp [pySplitAux, hc]
      · simpa [pySplitAux, hc] using ih (c :: acc)

theorem takeWhile_append_stop {p : Char → Bool} :
    ∀ {l₁ : List Char} (l₂ : List Char) {x : Char}, x ∈ l₁ → p x = false →
      List.takeWhile p (l₁ ++ l₂) = List.takeWhile p l₁ := by
  intro l₁
  induction l₁ with
  | nil => intro l₂ x hx; simp at hx
  | cons a as ih =>
      intro l₂ x hx hpx
      rw [List.cons_append, List.takeWhile_cons, List.takeWhile_cons]
      cases hpa : p a with
      | false => simp
      | true =>
          have hxas : x ∈ as := by
            rcases List.mem_cons.mp hx with h | h
            · subst h; rw [hpa] at hpx; exact absurd hpx (by simp)
            · exact h
          simp only [if_pos rfl]
          rw [ih l₂ hxas hpx]

theorem takeWhile_append_all {p : Char → Bool} :
    ∀ {l₁ : List Char} (l₂ : List Char), (∀ x ∈ l₁, p x = true) →
      List.takeWhile p (l₁ ++ l₂) = l₁ ++ List.takeWhile p l₂ := by
  intro l₁
  induction l₁ with
  | nil => intro l₂ _; simp
  | cons a as ih =>
      intro l₂ h
      rw [List.cons_append, List.takeWhile_cons, if_pos (h a (by simp)),
        ih l₂ (fun x hx => h x (by simp [hx])), List.cons_append]

theorem getLastD_cons_of_ne_nil {α : Type} {l : List α} (h : l ≠ []) (a d : α) :
    (a :: l).getLastD d = l.getLastD d := by
  cases l with
  | nil => exact absurd rfl h
  | cons b bs => rfl

theorem pySplitAux_getLastD (sep : Char) :
    ∀ (l acc : List Char),
      (pySplitAux sep l acc).getLastD [] =
        if sep ∈ l then (l.reverse.takeWhile (fun x => x != sep)).reverse
        else acc.reverse ++ l := by
  intro l
  induction l with
  | nil => intro acc; simp [pySplitAux]
  | cons c rest ih =>
      intro acc
      by_cases hc : c = sep
      · rw [hc]
        rw [show pySplitAux sep (sep :: rest) acc =
              acc.reverse :: pySplitAux sep rest [] from by simp [pySplitAux]]
        rw [getLastD_cons_of_ne_nil (pySplitAux_ne_nil sep rest []) _ _, ih []]
        rw [if_pos (List.mem_cons_self sep rest)]
        by_cases hmem : sep ∈ rest
        · rw [if_pos hmem, List.reverse_cons,
            takeWhile_append_stop [sep] (List.mem_reverse.mpr hmem) (by simp)]
        · rw [if_neg hmem, List.reverse_nil, List.nil_append, List.reverse_cons]
          rw [takeWhile_append_all [sep] (by
            intro x hx
            have hxr : x ∈ rest := List.mem_reverse.mp hx
            have hne : x ≠ sep := fun hEq => hmem (hEq ▸ hxr)
            simpa using hne)]
          simp
      · rw [show pySplitAux sep (c :: rest) acc =
              pySplitAux sep rest (c :: acc) from by simp [pySplitAux, hc]]
        rw [ih (c :: acc)]
        have hmemiff : (sep ∈ c :: rest) ↔ sep ∈ rest := by
          constructor
          · intro h
            rcases List.mem_cons.mp h with h1 | h1
            · exact absurd h1.symm hc
            · exact h1
          · exact fun h => List.mem_cons_of_mem c h
        by_cases hmem : sep ∈ rest
        · rw [if_pos hmem, if_pos (hmemiff.mpr hmem), List.reverse_cons,
            takeWhile_append_stop [c] (List.mem_reverse.mpr hmem) (by simp)]
        · rw [if_neg hmem, if_neg (fun h => hmem (hmemiff.mp h))]
          simp

theorem pySplit_getLastD (sep : Char) (l : List Char) :
    (pySplit sep l).getLastD [] =
      (l.reverse.takeWhile (fun x => x != sep)).reverse := by
  rw [pySplit, pySplitAux_getLastD]
  by_cases h : sep ∈ l
  · rw [if_pos h]
  · rw [if_neg h, List.reverse_nil, List.nil_append]
    rw [List.takeWhile_eq_self_iff.mpr (by
      intro x hx
      have hxl : x ∈ l := List.mem_reverse.mp hx
      have hne : x ≠ sep := fun hEq => h (hEq ▸ hxl)
      simpa using hne)]
    rw [List.reverse_reverse]

/-- Claim C10: `getActualFileNames` maps a list of paths to a list of the
same length whose i-th element is the substring of the i-th path after
its last `/` — the whole path when it contains no `/`, and the empty
string when the path ends in `/` — and it is a pure function of its input
list. -/
theorem claim_C10 (paths : List String) :
    (getActualFileNames paths).length = paths.length ∧
    (∀ i : Nat, (getActualFileNames paths)[i]? = (paths[i]?).map afterLastSlash) ∧
    (∀ s : String, '/' ∉ s.data → afterLastSlash s = s) ∧
    (∀ s : String, s.data.getLast? = some '/' → afterLastSlash s = "") := by
  have hfun : ∀ path : String,
      String.mk ((pySplit '/' path.data).getLastD []) = afterLastSlash path := by
    intro path
    rw [pySplit_getLastD, afterLastSlash]
  have hmap : getActualFileNames paths = paths.map afterLastSlash := by
    rw [getActualFileNames]
    exact List.map_congr_left (fun a _ => hfun a)
  refine ⟨by rw [hmap, List.length_map], ?_, ?_, ?_⟩
  · intro i
    rw [hmap, List.getElem?_map]
  · intro s hs
    rw [afterLastSlash]
    rw [List.takeWhile_eq_self_iff.mpr (by
      intro x hx
      have hxl : x ∈ s.data := List.mem_reverse.mp hx
      have hne : x ≠ '/' := fun hEq => hs (hEq ▸ hxl)
      simpa using hne)]
    rw [List.reverse_reverse]
  · intro s hs
    rw [afterLastSlash]
    have hhead : s.data.reverse.head? = some '/' := by
      rw [List.head?_reverse]
      exact hs
    rcases hrev : s.data.reverse with _ | ⟨a, t⟩
    · rw [hrev] at hhead
      simp at hhead
    · rw [hrev] at hhead
      have ha : a = '/' := by simpa using hhead
      rw [ha, List.takeWhile_cons]
      simp

/-- Witness for C10: concrete paths exercising the no-slash and
trailing-slash cases, with the hypotheses discharged by evaluation. -/
theorem claim_C10_witness :
    ('/' ∉ "noslash".data ∧ afterLastSlash "noslash" = "noslash") ∧
    ("dir/".data.getLast? = some '/' ∧ afterLastSlash "dir/" = "") :=
  ⟨⟨by decide,
    (claim_C10 ["a/b/c.txt", "noslash", "dir/"]).2.2.1 "noslash" (by decide)⟩,
   ⟨by decide,
    (claim_C10 ["a/b/c.txt", "noslash", "dir/"]).2.2.2 "dir/" (by decide)⟩⟩

end DOSpaces

